import Mathlib

/-!
Verification of the pallet-configurator geometry scripts.

Shallow embedding of the two Python scripts:
* `src/convert-step-to-glb.py`   — STEP → STL → GLB converter, recentering
  the mesh at its centroid before export (`step_to_glb`) and a driver loop
  over four hardcoded file pairs (`converter_main`).
* `src/scripts/fix-glb-orientation.py` — GLB orientation fixer: computes the
  bounding-box size vector, picks the axis with the smallest extent via
  `np.argmin`, and applies one of three fixed homogeneous transforms
  (`analyze_and_fix`), with CLI argument/existence checks (`fixer_main`).

Geometry is embedded over ℚ (exact arithmetic): a scene is a nonempty list
of vertices; bounds are componentwise fold of min/max over the vertices,
exactly as `numpy` computes `scene.bounds`; the two rotation matrices are
`trimesh.transformations.rotation_matrix(pi/2, axis)` evaluated exactly
(cos(π/2) = 0, sin(π/2) = 1).
-/

namespace PalletConfig

/-- A 3D vector/point with exact rational coordinates, standing in for a
numpy length-3 float array. -/
structure Vec3 where
  x : ℚ
  y : ℚ
  z : ℚ
deriving DecidableEq, Repr

/-- Indexing a `Vec3` like `size[0]`, `size[1]`, `size[2]` in the script. -/
def Vec3.get (v : Vec3) (i : Fin 3) : ℚ :=
  if i = 0 then v.x else if i = 1 then v.y else v.z

/-- Componentwise addition (used for `apply_translation`). -/
def Vec3.add (a b : Vec3) : Vec3 :=
  ⟨a.x + b.x, a.y + b.y, a.z + b.z⟩

/-- Componentwise subtraction (used for `size = bounds[1] - bounds[0]`). -/
def Vec3.sub (a b : Vec3) : Vec3 :=
  ⟨a.x - b.x, a.y - b.y, a.z - b.z⟩

/-- Componentwise negation (used for `-mesh.centroid`). -/
def Vec3.neg (a : Vec3) : Vec3 :=
  ⟨-a.x, -a.y, -a.z⟩

/-- The linear (rotation) part of a 4x4 homogeneous transform.  The
transforms built by the fixer have no translation component, so the 3x3
block captures them exactly. -/
structure Mat3 where
  m00 : ℚ
  m01 : ℚ
  m02 : ℚ
  m10 : ℚ
  m11 : ℚ
  m12 : ℚ
  m20 : ℚ
  m21 : ℚ
  m22 : ℚ
deriving DecidableEq, Repr

/-- Matrix–vector application, as `scene.apply_transform` acts on each
vertex. -/
def Mat3.apply (M : Mat3) (v : Vec3) : Vec3 :=
  ⟨M.m00 * v.x + M.m01 * v.y + M.m02 * v.z,
   M.m10 * v.x + M.m11 * v.y + M.m12 * v.z,
   M.m20 * v.x + M.m21 * v.y + M.m22 * v.z⟩

/-- `np.eye(4)` restricted to its rotation block: the identity transform. -/
def eye3 : Mat3 := ⟨1, 0, 0, 0, 1, 0, 0, 0, 1⟩

/-- `trimesh.transformations.rotation_matrix(np.pi/2, [0, 0, 1])`:
+90° about Z, mapping (x, y, z) to (-y, x, z). -/
def rotZ90 : Mat3 := ⟨0, -1, 0, 1, 0, 0, 0, 0, 1⟩

/-- `trimesh.transformations.rotation_matrix(np.pi/2, [1, 0, 0])`:
+90° about X, mapping (x, y, z) to (x, -z, y). -/
def rotX90 : Mat3 := ⟨1, 0, 0, 0, 0, -1, 0, 1, 0⟩

/-- A loaded scene/mesh: its geometry is a nonempty list of vertices
(first vertex kept separate so the bounding box is always defined, as
trimesh bounds are for nonempty geometry). -/
structure Scene where
  first : Vec3
  rest : List Vec3
deriving DecidableEq, Repr

/-- All vertices of the scene. -/
def Scene.verts (s : Scene) : List Vec3 := s.first :: s.rest

/-- Minimum of a coordinate over all vertices (one component of
`scene.bounds[0]`). -/
def minOf (f : Vec3 → ℚ) (s : Scene) : ℚ :=
  s.rest.foldl (fun a v => min a (f v)) (f s.first)

/-- Maximum of a coordinate over all vertices (one component of
`scene.bounds[1]`). -/
def maxOf (f : Vec3 → ℚ) (s : Scene) : ℚ :=
  s.rest.foldl (fun a v => max a (f v)) (f s.first)

/-- `scene.bounds[0]`: componentwise minimum corner. -/
def boundsMin (s : Scene) : Vec3 :=
  ⟨minOf Vec3.x s, minOf Vec3.y s, minOf Vec3.z s⟩

/-- `scene.bounds[1]`: componentwise maximum corner. -/
def boundsMax (s : Scene) : Vec3 :=
  ⟨maxOf Vec3.x s, maxOf Vec3.y s, maxOf Vec3.z s⟩

/-- `size = bounds[1] - bounds[0]`: the bounding-box size vector. -/
def size (s : Scene) : Vec3 :=
  Vec3.sub (boundsMax s) (boundsMin s)

/-- `scene.apply_transform(M)`: apply the transform to every vertex. -/
def transformScene (M : Mat3) (s : Scene) : Scene :=
  ⟨M.apply s.first, s.rest.map M.apply⟩

/-- `mesh.apply_translation(t)`: translate every vertex by `t`. -/
def apply_translation (s : Scene) (t : Vec3) : Scene :=
  ⟨Vec3.add s.first t, s.rest.map (fun v => Vec3.add v t)⟩

/-- `np.argmin` on a length-3 vector: the first index attaining the
minimum (numpy returns the first occurrence on ties). -/
def argmin3 (v : Vec3) : Fin 3 :=
  if v.x ≤ v.y ∧ v.x ≤ v.z then 0
  else if v.y ≤ v.z then 1
  else 2

/-- The `rotation_matrix` variable of `analyze_and_fix`: starts as the
identity and is replaced by the branch selected on `min_idx`. -/
def chooseRotation (s : Scene) : Mat3 :=
  let min_idx := argmin3 (size s)
  if min_idx = 0 then rotZ90
  else if min_idx = 1 then eye3
  else if min_idx = 2 then rotX90
  else eye3

/-- Observable outcome of `analyze_and_fix`: the transformed scene, whether
the post-rotation check printed the warning branch, and whether the output
file was written. -/
structure FixResult where
  outScene : Scene
  warning : Bool
  written : Bool
deriving DecidableEq, Repr

/-- `analyze_and_fix` of `fix-glb-orientation.py`: select the rotation from
the argmin of the size vector, apply it, recompute the bounds, set the
warning flag when Y is not the argmin of the new size, and export
unconditionally. -/
def analyze_and_fix (s : Scene) : FixResult :=
  let rotation := chooseRotation s
  let out := transformScene rotation s
  let new_size := size out
  { outScene := out
    warning := if argmin3 new_size = 1 then false else true
    written := true }

/-- Outcome of the fixer's `main`: usage error (`len(sys.argv) < 3`),
input-not-found error, or a completed run. -/
inductive MainOutcome where
  | usageError
  | notFoundError
  | ran (r : FixResult)
deriving DecidableEq, Repr

/-- Exit status of the process for each outcome: `sys.exit(1)` on the two
error paths, implicit 0 on a completed run. -/
def MainOutcome.exitCode : MainOutcome → Nat
  | .usageError => 1
  | .notFoundError => 1
  | .ran _ => 0

/-- Whether the output file was created. -/
def MainOutcome.outputWritten : MainOutcome → Bool
  | .usageError => false
  | .notFoundError => false
  | .ran r => r.written

/-- `main` of `fix-glb-orientation.py`.  `argv` models `sys.argv`
(element 0 is the program name); `fileExists` models `os.path.exists`;
`load` models `trimesh.load` on the input path. -/
def fixer_main (argv : List String) (fileExists : String → Bool)
    (load : String → Scene) : MainOutcome :=
  if argv.length < 3 then .usageError
  else
    let input_path := argv.getD 1 ""
    if fileExists input_path = false then .notFoundError
    else .ran (analyze_and_fix (load input_path))

/-- `mesh.centroid`, modelled as the mean vertex position (the spec's
glossary reading of centroid); the property verified below needs only that
the centroid is translation-equivariant, which holds for every library
variant. -/
def centroid (s : Scene) : Vec3 :=
  ⟨((s.verts.map Vec3.x).sum) / (s.verts.length : ℚ),
   ((s.verts.map Vec3.y).sum) / (s.verts.length : ℚ),
   ((s.verts.map Vec3.z).sum) / (s.verts.length : ℚ)⟩

/-- The geometric effect of `step_to_glb` on a successfully imported mesh:
`mesh.apply_translation(-mesh.centroid)` — the only transform applied
between loading the STL and exporting the GLB. -/
def step_to_glb (mesh : Scene) : Scene :=
  apply_translation mesh (Vec3.neg (centroid mesh))

/-- Per-file outcome in the converter's driver loop. -/
inductive FileOutcome where
  | skipped
  | success
  | errorLogged
deriving DecidableEq, Repr

/-- Environment of one converter run: which paths exist and whether
`step_to_glb` raises on a given input path. -/
structure ConvEnv where
  fileExists : String → Bool
  convertOk : String → Bool

/-- The hardcoded `models_dir` of `convert-step-to-glb.py`. -/
def models_dir : String :=
  "/Users/brooke/clawd/apps/pallet-configurator/public/models"

/-- `os.path.join` for the absolute directory and a filename. -/
def joinPath (d f : String) : String := d ++ "/" ++ f

/-- The hardcoded `step_files` list of four (input, output) pairs. -/
def step_files : List (String × String) :=
  [("dd-slide-assembly.step", "dd-slide-assembly.glb"),
   ("dd-lower-track.step", "dd-lower-track.glb"),
   ("dd-support-leg.step", "dd-support-leg.glb"),
   ("dd-manifold.step", "dd-manifold.glb")]

/-- One iteration of the converter's loop: skip when the input is absent,
otherwise convert, catching any exception (logged, not propagated). -/
def processFile (env : ConvEnv) (pair : String × String) : FileOutcome :=
  let step_path := joinPath models_dir pair.1
  if env.fileExists step_path = false then .skipped
  else if env.convertOk step_path then .success
  else .errorLogged

/-- `main` of `convert-step-to-glb.py`: process every pair of the fixed
list in order; the process exit status is 0 (no `sys.exit` is ever called
and every exception is caught inside the loop body). -/
def converter_main (env : ConvEnv) : Nat × List FileOutcome :=
  (0, step_files.map (processFile env))

/-- Concrete two-vertex scene whose bounding-box size is (1, 2, 3): the
smallest extent is on X. -/
def exampleMinX : Scene := ⟨⟨0, 0, 0⟩, [⟨1, 2, 3⟩]⟩

/-- Concrete two-vertex scene whose bounding-box size is (2, 1, 3): the
smallest extent is on Y. -/
def exampleMinY : Scene := ⟨⟨0, 0, 0⟩, [⟨2, 1, 3⟩]⟩

/-- Concrete two-vertex scene whose bounding-box size is (3, 2, 1): the
smallest extent is on Z. -/
def exampleMinZ : Scene := ⟨⟨0, 0, 0⟩, [⟨3, 2, 1⟩]⟩

/-! ### Helper lemmas -/

lemma fin3_cases (i : Fin 3) : i = 0 ∨ i = 1 ∨ i = 2 := by
  fin_cases i <;> simp

lemma Vec3.get_zero (v : Vec3) : v.get 0 = v.x := rfl

lemma Vec3.get_one (v : Vec3) : v.get 1 = v.y := rfl

lemma Vec3.get_two (v : Vec3) : v.get 2 = v.z := rfl

lemma foldl_min_neg (l : List Vec3) (f : Vec3 → ℚ) (c : ℚ) :
    l.foldl (fun a v => min a (-f v)) (-c) = -l.foldl (fun a v => max a (f v)) c := by
  induction l generalizing c with
  | nil => rfl
  | cons w t ih =>
    simp only [List.foldl_cons]
    rw [min_neg_neg]
    exact ih (max c (f w))

lemma foldl_max_neg (l : List Vec3) (f : Vec3 → ℚ) (c : ℚ) :
    l.foldl (fun a v => max a (-f v)) (-c) = -l.foldl (fun a v => min a (f v)) c := by
  induction l generalizing c with
  | nil => rfl
  | cons w t ih =>
    simp only [List.foldl_cons]
    rw [max_neg_neg]
    exact ih (min c (f w))

lemma foldl_min_add (l : List Vec3) (f : Vec3 → ℚ) (k c : ℚ) :
    l.foldl (fun a v => min a (f v + k)) (c + k) =
      l.foldl (fun a v => min a (f v)) c + k := by
  induction l generalizing c with
  | nil => rfl
  | cons w t ih =>
    simp only [List.foldl_cons]
    rw [min_add_add_right]
    exact ih (min c (f w))

lemma foldl_max_add (l : List Vec3) (f : Vec3 → ℚ) (k c : ℚ) :
    l.foldl (fun a v => max a (f v + k)) (c + k) =
      l.foldl (fun a v => max a (f v)) c + k := by
  induction l generalizing c with
  | nil => rfl
  | cons w t ih =>
    simp only [List.foldl_cons]
    rw [max_add_add_right]
    exact ih (max c (f w))

lemma minOf_transform (M : Mat3) (f : Vec3 → ℚ) (s : Scene) :
    minOf f (transformScene M s) = minOf (fun v => f (M.apply v)) s := by
  simp [minOf, transformScene, List.foldl_map]

lemma maxOf_transform (M : Mat3) (f : Vec3 → ℚ) (s : Scene) :
    maxOf f (transformScene M s) = maxOf (fun v => f (M.apply v)) s := by
  simp [maxOf, transformScene, List.foldl_map]

lemma minOf_translate (t : Vec3) (f : Vec3 → ℚ) (s : Scene) :
    minOf f (apply_translation s t) = minOf (fun v => f (Vec3.add v t)) s := by
  simp [minOf, apply_translation, List.foldl_map]

lemma maxOf_translate (t : Vec3) (f : Vec3 → ℚ) (s : Scene) :
    maxOf f (apply_translation s t) = maxOf (fun v => f (Vec3.add v t)) s := by
  simp [maxOf, apply_translation, List.foldl_map]

lemma minOf_neg (f : Vec3 → ℚ) (s : Scene) :
    minOf (fun v => -f v) s = -maxOf f s := by
  simp only [minOf, maxOf]
  exact foldl_min_neg s.rest f (f s.first)

lemma maxOf_neg (f : Vec3 → ℚ) (s : Scene) :
    maxOf (fun v => -f v) s = -minOf f s := by
  simp only [minOf, maxOf]
  exact foldl_max_neg s.rest f (f s.first)

lemma minOf_add (f : Vec3 → ℚ) (k : ℚ) (s : Scene) :
    minOf (fun v => f v + k) s = minOf f s + k := by
  simp only [minOf]
  exact foldl_min_add s.rest f k (f s.first)

lemma maxOf_add (f : Vec3 → ℚ) (k : ℚ) (s : Scene) :
    maxOf (fun v => f v + k) s = maxOf f s + k := by
  simp only [maxOf]
  exact foldl_max_add s.rest f k (f s.first)

lemma rotZ90_apply (v : Vec3) : rotZ90.apply v = ⟨-v.y, v.x, v.z⟩ := by
  simp [Mat3.apply, rotZ90]

lemma rotX90_apply (v : Vec3) : rotX90.apply v = ⟨v.x, -v.z, v.y⟩ := by
  simp [Mat3.apply, rotX90]

lemma eye3_apply (v : Vec3) : eye3.apply v = v := by
  cases v
  simp [Mat3.apply, eye3]

lemma transform_eye3 (s : Scene) : transformScene eye3 s = s := by
  have h : Mat3.apply eye3 = id := funext fun v => by rw [eye3_apply]; rfl
  cases s with
  | mk f r => simp [transformScene, h]

lemma size_rotZ90 (s : Scene) :
    size (transformScene rotZ90 s) = ⟨(size s).y, (size s).x, (size s).z⟩ := by
  have hx : (fun v : Vec3 => Vec3.x (rotZ90.apply v)) = fun v => -Vec3.y v :=
    funext fun v => by rw [rotZ90_apply]
  have hy : (fun v : Vec3 => Vec3.y (rotZ90.apply v)) = fun v => Vec3.x v :=
    funext fun v => by rw [rotZ90_apply]
  have hz : (fun v : Vec3 => Vec3.z (rotZ90.apply v)) = fun v => Vec3.z v :=
    funext fun v => by rw [rotZ90_apply]
  simp only [size, Vec3.sub, boundsMax, boundsMin, minOf_transform, maxOf_transform,
    hx, hy, hz, minOf_neg, maxOf_neg]
  simp only [Vec3.mk.injEq]
  refine ⟨by ring_nf, by ring_nf, by ring_nf⟩

lemma size_rotX90 (s : Scene) :
    size (transformScene rotX90 s) = ⟨(size s).x, (size s).z, (size s).y⟩ := by
  have hx : (fun v : Vec3 => Vec3.x (rotX90.apply v)) = fun v => Vec3.x v :=
    funext fun v => by rw [rotX90_apply]
  have hy : (fun v : Vec3 => Vec3.y (rotX90.apply v)) = fun v => -Vec3.z v :=
    funext fun v => by rw [rotX90_apply]
  have hz : (fun v : Vec3 => Vec3.z (rotX90.apply v)) = fun v => Vec3.y v :=
    funext fun v => by rw [rotX90_apply]
  simp only [size, Vec3.sub, boundsMax, boundsMin, minOf_transform, maxOf_transform,
    hx, hy, hz, minOf_neg, maxOf_neg]
  simp only [Vec3.mk.injEq]
  refine ⟨by ring_nf, by ring_nf, by ring_nf⟩

lemma size_translate (s : Scene) (t : Vec3) :
    size (apply_translation s t) = size s := by
  have hx : (fun v : Vec3 => Vec3.x (Vec3.add v t)) = fun v => Vec3.x v + t.x :=
    funext fun v => rfl
  have hy : (fun v : Vec3 => Vec3.y (Vec3.add v t)) = fun v => Vec3.y v + t.y :=
    funext fun v => rfl
  have hz : (fun v : Vec3 => Vec3.z (Vec3.add v t)) = fun v => Vec3.z v + t.z :=
    funext fun v => rfl
  simp only [size, Vec3.sub, boundsMax, boundsMin, minOf_translate, maxOf_translate,
    hx, hy, hz, minOf_add, maxOf_add]
  simp only [Vec3.mk.injEq]
  refine ⟨by ring_nf, by ring_nf, by ring_nf⟩

lemma chooseRotation_of_argmin_zero (s : Scene) (h : argmin3 (size s) = 0) :
    chooseRotation s = rotZ90 := by
  simp [chooseRotation, h]

lemma chooseRotation_of_argmin_one (s : Scene) (h : argmin3 (size s) = 1) :
    chooseRotation s = eye3 := by
  simp [chooseRotation, h]

lemma chooseRotation_of_argmin_two (s : Scene) (h : argmin3 (size s) = 2) :
    chooseRotation s = rotX90 := by
  simp [chooseRotation, h]

lemma analyze_outScene (s : Scene) :
    (analyze_and_fix s).outScene = transformScene (chooseRotation s) s := rfl

lemma analyze_written (s : Scene) : (analyze_and_fix s).written = true := rfl

lemma analyze_warning (s : Scene) :
    (analyze_and_fix s).warning =
      if argmin3 (size (transformScene (chooseRotation s) s)) = 1 then false
      else true := rfl

lemma sum_map_add_const (l : List Vec3) (f : Vec3 → ℚ) (k : ℚ) :
    (l.map (fun v => f v + k)).sum = (l.map f).sum + l.length * k := by
  induction l with
  | nil => simp
  | cons w tl ih =>
    simp only [List.map_cons, List.sum_cons, List.length_cons, ih]
    push_cast
    ring

lemma verts_translate (s : Scene) (t : Vec3) :
    (apply_translation s t).verts = s.verts.map (fun v => Vec3.add v t) := by
  simp [Scene.verts, apply_translation]

lemma verts_length_ne_zero (s : Scene) : ((s.verts.length : ℚ)) ≠ 0 := by
  have h : s.verts.length = s.rest.length + 1 := rfl
  rw [h]
  push_cast
  positivity

lemma centroid_translate (s : Scene) (t : Vec3) :
    centroid (apply_translation s t) = Vec3.add (centroid s) t := by
  have hn := verts_length_ne_zero s
  have hx : (Vec3.x ∘ fun v => Vec3.add v t) = fun v => Vec3.x v + t.x :=
    funext fun v => rfl
  have hy : (Vec3.y ∘ fun v => Vec3.add v t) = fun v => Vec3.y v + t.y :=
    funext fun v => rfl
  have hz : (Vec3.z ∘ fun v => Vec3.add v t) = fun v => Vec3.z v + t.z :=
    funext fun v => rfl
  simp only [centroid, verts_translate, List.length_map, List.map_map]
  rw [hx, hy, hz]
  simp only [sum_map_add_const]
  simp only [Vec3.add]
  simp only [Vec3.mk.injEq]
  refine ⟨?_, ?_, ?_⟩ <;> rw [add_div, mul_div_cancel_left₀ _ hn]

/-! ### Claim theorems -/

/-- C1: for every loaded scene the orientation fixer selects its transform
solely from the argmin of the bounding-box size vector, taking exactly one of
three branches: argmin at X gives the +90° rotation about Z, argmin at Y gives
the identity, argmin at Z gives the +90° rotation about X, and no other
transform is ever applied. -/
theorem fixer_branch_selection (s : Scene) :
    (argmin3 (size s) = 0 → chooseRotation s = rotZ90) ∧
    (argmin3 (size s) = 1 → chooseRotation s = eye3) ∧
    (argmin3 (size s) = 2 → chooseRotation s = rotX90) ∧
    (chooseRotation s = rotZ90 ∨ chooseRotation s = eye3 ∨
      chooseRotation s = rotX90) ∧
    (∀ t : Scene, argmin3 (size t) = argmin3 (size s) →
      chooseRotation t = chooseRotation s) := by
  refine ⟨chooseRotation_of_argmin_zero s, chooseRotation_of_argmin_one s,
    chooseRotation_of_argmin_two s, ?_, ?_⟩
  · rcases fin3_cases (argmin3 (size s)) with h | h | h
    · exact Or.inl (chooseRotation_of_argmin_zero s h)
    · exact Or.inr (Or.inl (chooseRotation_of_argmin_one s h))
    · exact Or.inr (Or.inr (chooseRotation_of_argmin_two s h))
  · intro t ht
    simp [chooseRotation, ht]

/-- Witness for C1: on the concrete scene with size (1, 2, 3) the argmin is X
and the selected transform is the +90° rotation about Z. -/
theorem fixer_branch_selection_witness : chooseRotation exampleMinX = rotZ90 :=
  (fixer_branch_selection exampleMinX).1 (by
    norm_num [exampleMinX, size, boundsMax, boundsMin, maxOf, minOf, Vec3.sub,
      argmin3, min_def, max_def])

/-- C2: when the smallest extent is on X, the rotated scene's recomputed size
has Y equal to the original X extent (the original minimum), X equal to the
original Y extent and Z unchanged; when the smallest extent is on Z, the
recomputed size has Y equal to the original Z extent, Z equal to the original
Y extent and X unchanged.  Equality is exact over ℚ, so it holds in
particular within any floating-point tolerance. -/
theorem rotated_size_swaps (s : Scene) :
    (argmin3 (size s) = 0 →
      size (analyze_and_fix s).outScene =
        ⟨(size s).y, (size s).x, (size s).z⟩) ∧
    (argmin3 (size s) = 2 →
      size (analyze_and_fix s).outScene =
        ⟨(size s).x, (size s).z, (size s).y⟩) := by
  constructor
  · intro h
    rw [analyze_outScene, chooseRotation_of_argmin_zero s h, size_rotZ90]
  · intro h
    rw [analyze_outScene, chooseRotation_of_argmin_two s h, size_rotX90]

/-- Witness for C2: both branches evaluated on concrete scenes with size
(1, 2, 3) (argmin on X) and (3, 2, 1) (argmin on Z). -/
theorem rotated_size_swaps_witness :
    size (analyze_and_fix exampleMinX).outScene =
      ⟨(size exampleMinX).y, (size exampleMinX).x, (size exampleMinX).z⟩ ∧
    size (analyze_and_fix exampleMinZ).outScene =
      ⟨(size exampleMinZ).x, (size exampleMinZ).z, (size exampleMinZ).y⟩ :=
  ⟨(rotated_size_swaps exampleMinX).1 (by
      norm_num [exampleMinX, size, boundsMax, boundsMin, maxOf, minOf, Vec3.sub,
        argmin3, min_def, max_def]),
   (rotated_size_swaps exampleMinZ).2 (by
      norm_num [exampleMinZ, size, boundsMax, boundsMin, maxOf, minOf, Vec3.sub,
        argmin3, min_def, max_def])⟩

/-- C3: the axis selection is the first index attaining the minimum of the
size vector: the chosen component is a lower bound for all three components,
and every component at a strictly smaller index is strictly larger — so on
ties the lowest-indexed axis (X before Y before Z) wins. -/
theorem argmin3_first_minimum (v : Vec3) :
    (∀ j : Fin 3, v.get (argmin3 v) ≤ v.get j) ∧
    (∀ j : Fin 3, j < argmin3 v → v.get (argmin3 v) < v.get j) := by
  by_cases h1 : v.x ≤ v.y ∧ v.x ≤ v.z
  · obtain ⟨hxy, hxz⟩ := h1
    have hm : argmin3 v = 0 := by simp [argmin3, hxy, hxz]
    rw [hm]
    constructor
    · intro j
      rcases fin3_cases j with rfl | rfl | rfl <;>
        simp [Vec3.get_zero, Vec3.get_one, Vec3.get_two] <;> linarith
    · intro j hj
      exact absurd hj (Fin.not_lt_zero j)
  · have hx : v.y < v.x ∨ v.z < v.x := by
      rcases not_and_or.mp h1 with h | h
      · exact Or.inl (lt_of_not_le h)
      · exact Or.inr (lt_of_not_le h)
    by_cases h2 : v.y ≤ v.z
    · have hm : argmin3 v = 1 := by simp [argmin3, h1, h2]
      rw [hm]
      constructor
      · intro j
        rcases fin3_cases j with rfl | rfl | rfl <;>
          simp [Vec3.get_zero, Vec3.get_one, Vec3.get_two] <;>
          rcases hx with h | h <;> linarith
      · intro j hj
        rcases fin3_cases j with rfl | rfl | rfl
        · simp [Vec3.get_zero, Vec3.get_one]
          rcases hx with h | h <;> linarith
        · exact absurd hj (lt_irrefl _)
        · exact absurd hj (by decide)
    · have h2' : v.z < v.y := lt_of_not_le h2
      have hm : argmin3 v = 2 := by simp [argmin3, h1, h2]
      rw [hm]
      constructor
      · intro j
        rcases fin3_cases j with rfl | rfl | rfl <;>
          simp [Vec3.get_zero, Vec3.get_one, Vec3.get_two] <;>
          rcases hx with h | h <;> linarith
      · intro j hj
        rcases fin3_cases j with rfl | rfl | rfl
        · simp [Vec3.get_zero, Vec3.get_two]
          rcases hx with h | h <;> linarith
        · simp [Vec3.get_one, Vec3.get_two]
          linarith
        · exact absurd hj (lt_irrefl _)

/-- Witness for C3 at the tied size vector (2, 1, 1): the chosen index is Y
(the first index attaining the minimum), its value bounds the Z component, and
the earlier X component is strictly larger. -/
theorem argmin3_first_minimum_witness :
    Vec3.get ⟨2, 1, 1⟩ (argmin3 ⟨2, 1, 1⟩) ≤ Vec3.get ⟨2, 1, 1⟩ 2 ∧
    Vec3.get ⟨2, 1, 1⟩ (argmin3 ⟨2, 1, 1⟩) < Vec3.get ⟨2, 1, 1⟩ 0 :=
  ⟨(argmin3_first_minimum ⟨2, 1, 1⟩).1 2,
   (argmin3_first_minimum ⟨2, 1, 1⟩).2 0 (by norm_num [argmin3])⟩

/-- C4: when the smallest extent is already on Y the selected transform is the
identity operation: the output scene equals the input scene, and in particular
the output bounding box equals the input bounding box. -/
theorem identity_when_y_smallest (s : Scene) (h : argmin3 (size s) = 1) :
    (analyze_and_fix s).outScene = s ∧
    boundsMin (analyze_and_fix s).outScene = boundsMin s ∧
    boundsMax (analyze_and_fix s).outScene = boundsMax s := by
  have h1 : (analyze_and_fix s).outScene = s := by
    rw [analyze_outScene, chooseRotation_of_argmin_one s h, transform_eye3]
  exact ⟨h1, by rw [h1], by rw [h1]⟩

/-- Witness for C4 on the concrete scene with size (2, 1, 3). -/
theorem identity_when_y_smallest_witness :
    (analyze_and_fix exampleMinY).outScene = exampleMinY :=
  (identity_when_y_smallest exampleMinY (by
    norm_num [exampleMinY, size, boundsMax, boundsMin, maxOf, minOf, Vec3.sub,
      argmin3, min_def, max_def])).1

/-- C5: when the size vector has a strictly unique minimum component, the
recomputed size after the selected rotation has its strict minimum at index 1
(Y), so the post-rotation warning branch is never taken under this
precondition. -/
theorem unique_minimum_lands_on_y (s : Scene)
    (h : ∀ j : Fin 3, j ≠ argmin3 (size s) →
      (size s).get (argmin3 (size s)) < (size s).get j) :
    argmin3 (size (analyze_and_fix s).outScene) = 1 ∧
    (∀ j : Fin 3, j ≠ 1 →
      (size (analyze_and_fix s).outScene).get 1 <
        (size (analyze_and_fix s).outScene).get j) ∧
    (analyze_and_fix s).warning = false := by
  have key : argmin3 (size (transformScene (chooseRotation s) s)) = 1 ∧
      ∀ j : Fin 3, j ≠ 1 →
        (size (transformScene (chooseRotation s) s)).get 1 <
          (size (transformScene (chooseRotation s) s)).get j := by
    rcases fin3_cases (argmin3 (size s)) with hm | hm | hm
    · have h01 := h 1 (by rw [hm]; decide)
      have h02 := h 2 (by rw [hm]; decide)
      rw [hm, Vec3.get_zero, Vec3.get_one] at h01
      rw [hm, Vec3.get_zero, Vec3.get_two] at h02
      rw [chooseRotation_of_argmin_zero s hm, size_rotZ90]
      have hyx : ¬(size s).y ≤ (size s).x := not_le.mpr h01
      refine ⟨by simp [argmin3, hyx, le_of_lt h02], ?_⟩
      intro j hj
      rcases fin3_cases j with rfl | rfl | rfl
      · rw [Vec3.get_zero, Vec3.get_one]
        exact h01
      · exact absurd rfl hj
      · rw [Vec3.get_one, Vec3.get_two]
        exact h02
    · have h10 := h 0 (by rw [hm]; decide)
      have h12 := h 2 (by rw [hm]; decide)
      rw [hm, Vec3.get_one, Vec3.get_zero] at h10
      rw [hm, Vec3.get_one, Vec3.get_two] at h12
      rw [chooseRotation_of_argmin_one s hm, transform_eye3]
      refine ⟨hm, ?_⟩
      intro j hj
      rcases fin3_cases j with rfl | rfl | rfl
      · rw [Vec3.get_zero, Vec3.get_one]
        exact h10
      · exact absurd rfl hj
      · rw [Vec3.get_one, Vec3.get_two]
        exact h12
    · have h20 := h 0 (by rw [hm]; decide)
      have h21 := h 1 (by rw [hm]; decide)
      rw [hm, Vec3.get_two, Vec3.get_zero] at h20
      rw [hm, Vec3.get_two, Vec3.get_one] at h21
      rw [chooseRotation_of_argmin_two s hm, size_rotX90]
      have hxz : ¬(size s).x ≤ (size s).z := not_le.mpr h20
      refine ⟨by simp [argmin3, hxz, le_of_lt h21], ?_⟩
      intro j hj
      rcases fin3_cases j with rfl | rfl | rfl
      · rw [Vec3.get_zero, Vec3.get_one]
        exact h20
      · exact absurd rfl hj
      · rw [Vec3.get_one, Vec3.get_two]
        exact h21
  refine ⟨?_, ?_, ?_⟩
  · rw [analyze_outScene]
    exact key.1
  · rw [analyze_outScene]
    exact key.2
  · rw [analyze_warning, key.1]
    simp

/-- Witness for C5 on the concrete scene with strictly unique minimum, size
(1, 2, 3): the warning branch is not taken. -/
theorem unique_minimum_lands_on_y_witness :
    (analyze_and_fix exampleMinX).warning = false :=
  (unique_minimum_lands_on_y exampleMinX (by
    intro j hj
    have hm : argmin3 (size exampleMinX) = 0 := by
      norm_num [exampleMinX, size, boundsMax, boundsMin, maxOf, minOf, Vec3.sub,
        argmin3, min_def, max_def]
    rw [hm] at hj ⊢
    rcases fin3_cases j with rfl | rfl | rfl
    · exact absurd rfl hj
    · norm_num [exampleMinX, size, boundsMax, boundsMin, maxOf, minOf, Vec3.sub,
        Vec3.get_zero, Vec3.get_one, min_def, max_def]
    · norm_num [exampleMinX, size, boundsMax, boundsMin, maxOf, minOf, Vec3.sub,
        Vec3.get_zero, Vec3.get_two, min_def, max_def])).2.2

/-- C6: the converter translates every vertex by the negative of the mesh
centroid before export, so the exported mesh's centroid is exactly the origin
(hence within any floating-point tolerance of it). -/
theorem converted_centroid_at_origin (mesh : Scene) :
    centroid (step_to_glb mesh) = ⟨0, 0, 0⟩ := by
  rw [step_to_glb, centroid_translate]
  simp [Vec3.add, Vec3.neg]

/-- C7: the fixer exits with status 1 when `sys.argv` has fewer than three
entries (program name plus two user arguments), and exits with status 1 with
no output file created when the input path does not exist. -/
theorem fixer_cli_error_exits (argv : List String) (fileExists : String → Bool)
    (load : String → Scene) :
    (argv.length < 3 →
      fixer_main argv fileExists load = .usageError ∧
      (fixer_main argv fileExists load).exitCode = 1 ∧
      (fixer_main argv fileExists load).outputWritten = false) ∧
    (3 ≤ argv.length → fileExists (argv.getD 1 "") = false →
      fixer_main argv fileExists load = .notFoundError ∧
      (fixer_main argv fileExists load).exitCode = 1 ∧
      (fixer_main argv fileExists load).outputWritten = false) := by
  constructor
  · intro h
    simp [fixer_main, h, MainOutcome.exitCode, MainOutcome.outputWritten]
  · intro h hf
    have h3 : ¬argv.length < 3 := not_lt.mpr h
    simp only [List.getD_eq_getElem?_getD] at hf
    simp [fixer_main, h3, hf, MainOutcome.exitCode, MainOutcome.outputWritten]

/-- Witness for C7: a one-element argv exits 1, and a full argv whose input
path does not exist writes no output. -/
theorem fixer_cli_error_exits_witness :
    (fixer_main ["fix-glb-orientation.py"] (fun _ => false)
      (fun _ => exampleMinY)).exitCode = 1 ∧
    (fixer_main ["fix-glb-orientation.py", "in.glb", "out.glb"] (fun _ => false)
      (fun _ => exampleMinY)).outputWritten = false :=
  ⟨((fixer_cli_error_exits ["fix-glb-orientation.py"] (fun _ => false)
      (fun _ => exampleMinY)).1 (by decide)).2.1,
   ((fixer_cli_error_exits ["fix-glb-orientation.py", "in.glb", "out.glb"]
      (fun _ => false) (fun _ => exampleMinY)).2 (by decide) rfl).2.2⟩

/-- C8: the converter always exits with status 0 no matter which files exist
or which conversions raise; every one of the four hardcoded pairs is processed
in order (so one file's failure never aborts the batch), an absent input is
skipped, and a conversion exception is logged without changing the exit
status. -/
theorem converter_always_exits_zero (env : ConvEnv) :
    (converter_main env).1 = 0 ∧
    (converter_main env).2 = step_files.map (processFile env) ∧
    (converter_main env).2.length = 4 ∧
    (∀ pair ∈ step_files,
      env.fileExists (joinPath models_dir pair.1) = false →
        processFile env pair = .skipped) ∧
    (∀ pair ∈ step_files,
      env.fileExists (joinPath models_dir pair.1) = true →
        env.convertOk (joinPath models_dir pair.1) = false →
          processFile env pair = .errorLogged) := by
  refine ⟨rfl, rfl, by simp [converter_main, step_files], ?_, ?_⟩
  · intro pair _ h
    simp [processFile, h]
  · intro pair _ h hc
    simp [processFile, h, hc]

/-- Witness for C8 in an environment where no input file exists: the run
exits 0 and the first hardcoded file is skipped. -/
theorem converter_always_exits_zero_witness :
    (converter_main ⟨fun _ => false, fun _ => true⟩).1 = 0 ∧
    processFile ⟨fun _ => false, fun _ => true⟩
      ("dd-slide-assembly.step", "dd-slide-assembly.glb") = .skipped :=
  ⟨(converter_always_exits_zero ⟨fun _ => false, fun _ => true⟩).1,
   (converter_always_exits_zero ⟨fun _ => false, fun _ => true⟩).2.2.2.1
     ("dd-slide-assembly.step", "dd-slide-assembly.glb")
     (by simp [step_files]) rfl⟩

/-- C9: the post-rotation check is diagnostic only: the fixer applies the
selected rotation exactly once (no retry or second rotation), sets the warning
flag exactly when Y is not the argmin of the recomputed size, and the output
is written unconditionally. -/
theorem post_check_nonfatal (s : Scene) :
    (analyze_and_fix s).written = true ∧
    (analyze_and_fix s).outScene = transformScene (chooseRotation s) s ∧
    ((analyze_and_fix s).warning = false ↔
      argmin3 (size (transformScene (chooseRotation s) s)) = 1) := by
  refine ⟨rfl, rfl, ?_⟩
  rw [analyze_warning]
  by_cases h : argmin3 (size (transformScene (chooseRotation s) s)) = 1 <;>
    simp [h]

/-- Witness for C9 on a concrete scene: the output is written. -/
theorem post_check_nonfatal_witness :
    (analyze_and_fix exampleMinY).written = true :=
  (post_check_nonfatal exampleMinY).1

/-- C10: no scaling transform is ever applied: the converter's centroid
translation preserves the bounding-box size exactly, and the fixer's selected
rotation only permutes the size components; the division by 25.4 appears only
in diagnostic printed output, never in the exported geometry. -/
theorem no_scaling_applied (mesh s : Scene) :
    size (step_to_glb mesh) = size mesh ∧
    (size (analyze_and_fix s).outScene = size s ∨
     size (analyze_and_fix s).outScene = ⟨(size s).y, (size s).x, (size s).z⟩ ∨
     size (analyze_and_fix s).outScene = ⟨(size s).x, (size s).z, (size s).y⟩) := by
  constructor
  · show size (apply_translation mesh (Vec3.neg (centroid mesh))) = size mesh
    exact size_translate mesh (Vec3.neg (centroid mesh))
  · rw [analyze_outScene]
    rcases fin3_cases (argmin3 (size s)) with hm | hm | hm
    · rw [chooseRotation_of_argmin_zero s hm, size_rotZ90]
      exact Or.inr (Or.inl rfl)
    · rw [chooseRotation_of_argmin_one s hm, transform_eye3]
      exact Or.inl rfl
    · rw [chooseRotation_of_argmin_two s hm, size_rotX90]
      exact Or.inr (Or.inr rfl)

end PalletConfig
